import Mathlib

/-!
A shallow embedding of the INP (Interaction to Next Paint) measurement module
(`src/unnamed/part_001`, the `onINP` source file): the interaction merger, the
bounded top-K latency tracker, the p98 estimator, and the lifecycle callbacks
(`handleEntries`, the `onHidden` callback, the `onBFCacheRestore` callback).

Conventions of the embedding:
* JS numbers (durations, start times, latencies, metric values) are modelled
  as `Int`; host interaction counters as `Nat`.
* `entry.interactionId` is an optional number (`first-input` entries carry
  none); the JS truthiness test `if (entry.interactionId)` is `truthyId`.
* The module-level mutable variables `longestInteractionList`,
  `longestInteractionMap`, `prevInteractionCount` and the `metric` object
  become explicit state records, and each callback becomes a state
  transformer.
* The JS object `longestInteractionMap` is an association list keyed by the
  (optional) interaction id.  In the source, the map value and the list
  element for a given id are the same mutable object; the in-place mutation
  of that object is modelled by rewriting, by id, both the list element and
  the map value.
* Reading a field of `undefined` (a TypeError in the source) is modelled by
  `Option`: `processEntry` returns `none` exactly when the source would
  dereference `longestInteractionList[length - 1]` on an empty list.
-/

/-- A raw event-timing fragment delivered by the host
(`PerformanceEventTiming` in the source). -/
structure PerformanceEventTiming where
  interactionId : Option Nat
  duration : Int
  startTime : Int
  entryType : String
deriving DecidableEq, Repr

/-- A logical interaction (source lines 26-30): the merged fragments sharing
one interaction id, with `latency` the maximum fragment duration. -/
structure Interaction where
  id : Option Nat
  latency : Int
  entries : List PerformanceEventTiming
deriving DecidableEq, Repr

/-- The metric state (`initMetric('INP')` result as used here): the current
value (negative sentinel while unset) and the attributed fragments. -/
structure Metric where
  value : Int
  entries : List PerformanceEventTiming
deriving DecidableEq, Repr

/-- Modelled from the spec: the metric-state initializer (`initMetric`, a
library helper not present under `src/`); the value starts at the unset
negative sentinel, conventionally `-1`, with no entries. -/
def initMetric : Metric := ⟨-1, []⟩

/-- Source line 46: at most 10 interactions are retained. -/
def MAX_INTERACTIONS_TO_CONSIDER : Nat := 10

/-- JS truthiness of `entry.interactionId` (line 151): `undefined` and `0`
are falsy. -/
def truthyId : Option Nat → Bool
  | some n => n ≠ 0
  | none => false

/-- Lookup in the `longestInteractionMap` object (line 67). -/
def mapLookup : List (Option Nat × Interaction) → Option Nat → Option Interaction
  | [], _ => none
  | p :: rest, k => if p.1 = k then some p.2 else mapLookup rest k

/-- `longestInteractionMap[interaction.id] = interaction` (line 85):
overwrite the value at an existing key, or add the key. -/
def mapSet : List (Option Nat × Interaction) → Option Nat → Interaction →
    List (Option Nat × Interaction)
  | [], k, v => [(k, v)]
  | p :: rest, k, v => if p.1 = k then (k, v) :: rest else p :: mapSet rest k v

/-- `delete longestInteractionMap[i.id]` (line 92). -/
def mapDelete : List (Option Nat × Interaction) → Option Nat →
    List (Option Nat × Interaction)
  | [], _ => []
  | p :: rest, k => if p.1 = k then mapDelete rest k else p :: mapDelete rest k

/-- The tracker's mutable module state: `longestInteractionList` (line 50)
and `longestInteractionMap` (line 54). -/
structure TrackerState where
  longestInteractionList : List Interaction
  longestInteractionMap : List (Option Nat × Interaction)
deriving DecidableEq, Repr

/-- The descending-by-latency order used by the sort comparator on line 90
(`(a, b) => b.latency - a.latency`). -/
def latencyGE (a b : Interaction) : Prop := b.latency ≤ a.latency

instance : DecidableRel latencyGE := fun a b => Int.decLe b.latency a.latency

instance : IsTotal Interaction latencyGE := ⟨fun a b => le_total b.latency a.latency⟩

instance : IsTrans Interaction latencyGE := ⟨fun _ _ _ h1 h2 => le_trans h2 h1⟩

/-- The sort on line 90: sort by latency, longest first.  (The relative
order of equal-latency elements is unspecified in the design; any
latency-descending sort is a faithful model.) -/
def sortByLatencyDesc (l : List Interaction) : List Interaction :=
  l.insertionSort latencyGE

/-- Lines 76-78: append the fragment to the interaction and raise its
latency to the max of the current latency and the fragment duration. -/
def mergeFragment (i : Interaction) (entry : PerformanceEventTiming) : Interaction :=
  { i with entries := i.entries ++ [entry],
           latency := max i.latency entry.duration }

/-- Lines 80-84: the interaction created for a fragment whose id is not yet
tracked. -/
def mkInteraction (entry : PerformanceEventTiming) : Interaction :=
  ⟨entry.interactionId, entry.duration, [entry]⟩

/-- Lines 74-87: if the interaction already exists, update it (the map
value and the list element for that id are one shared object in the
source); otherwise create one, push it, and index it. -/
def upsert (entry : PerformanceEventTiming) (t : TrackerState) : TrackerState :=
  match mapLookup t.longestInteractionMap entry.interactionId with
  | some existing =>
    let updated := mergeFragment existing entry
    ⟨t.longestInteractionList.map
        (fun i => if i.id = entry.interactionId then updated else i),
     t.longestInteractionMap.map
        (fun p => if p.1 = entry.interactionId then (p.1, updated) else p)⟩
  | none =>
    let interaction := mkInteraction entry
    ⟨t.longestInteractionList ++ [interaction],
     mapSet t.longestInteractionMap interaction.id interaction⟩

/-- The admission body of `processEntry` (lines 74-93): upsert the record,
re-sort descending by latency, keep the first ten, and delete the evicted
ids from the map. -/
def admitEntry (entry : PerformanceEventTiming) (t : TrackerState) : TrackerState :=
  let sorted := sortByLatencyDesc (upsert entry t).longestInteractionList
  ⟨sorted.take MAX_INTERACTIONS_TO_CONSIDER,
   (sorted.drop MAX_INTERACTIONS_TO_CONSIDER).foldl
      (fun m i => mapDelete m i.id) (upsert entry t).longestInteractionMap⟩

/-- `processEntry` (lines 62-95).  The guard is the short-circuit
disjunction of line 71-73; its third disjunct reads
`longestInteractionList[length - 1].latency`, which is a TypeError when the
list is empty — that evaluation is the `none` result. -/
def processEntry (entry : PerformanceEventTiming) (t : TrackerState) :
    Option TrackerState :=
  if (mapLookup t.longestInteractionMap entry.interactionId).isSome
      ∨ t.longestInteractionList.length < MAX_INTERACTIONS_TO_CONSIDER then
    some (admitEntry entry t)
  else
    match t.longestInteractionList.getLast? with
    | none => none
    | some minLongestInteraction =>
      if minLongestInteraction.latency < entry.duration then
        some (admitEntry entry t)
      else
        some t

/-- The admission guard of lines 71-73 as a boolean (total, because the
third disjunct is only consulted when the list is nonempty). -/
def admitCond (entry : PerformanceEventTiming) (t : TrackerState) : Bool :=
  (mapLookup t.longestInteractionMap entry.interactionId).isSome
    || t.longestInteractionList.length < MAX_INTERACTIONS_TO_CONSIDER
    || (match t.longestInteractionList.getLast? with
        | some m => m.latency < entry.duration
        | none => false)

/-- `getInteractionCountForNavigation` (lines 40-42): the host's running
total minus the baseline snapshot. -/
def getInteractionCountForNavigation (interactionCount prevInteractionCount : Nat) : Int :=
  (interactionCount : Int) - (prevInteractionCount : Int)

/-- `estimateP98LongestInteraction` (lines 101-106): index
`min(length - 1, floor(countForNavigation / 50))` into the sorted list;
a negative or out-of-range index yields `undefined` (= `none`). -/
def estimateP98LongestInteraction (list : List Interaction)
    (interactionCount prevInteractionCount : Nat) : Option Interaction :=
  let candidateInteractionIndex : Int :=
    min ((list.length : Int) - 1)
      ((getInteractionCountForNavigation interactionCount prevInteractionCount).fdiv 50)
  if 0 ≤ candidateInteractionIndex then list[candidateInteractionIndex.toNat]? else none

/-- The `duration`/`startTime` scan of lines 164-169: is there a fragment
already stored in some tracked interaction with the identical pair? -/
def noMatchingEntry (t : TrackerState) (entry : PerformanceEventTiming) : Bool :=
  ! t.longestInteractionList.any (fun interaction =>
      interaction.entries.any (fun prevEntry =>
        entry.duration == prevEntry.duration && entry.startTime == prevEntry.startTime))

/-- The per-entry body of the `forEach` in `handleEntries` (lines 150-174):
process identity-bearing entries directly; `first-input` entries only pass
the heuristic deduplication scan. -/
def handleEntry (entry : PerformanceEventTiming) (t : TrackerState) :
    Option TrackerState :=
  match (if truthyId entry.interactionId then processEntry entry t else some t) with
  | none => none
  | some t1 =>
    if entry.entryType = "first-input" then
      if noMatchingEntry t1 entry then processEntry entry t1 else some t1
    else
      some t1

/-- The `entries.forEach` loop of `handleEntries`, over one delivery batch. -/
def processBatch (entries : List PerformanceEventTiming) (t : TrackerState) :
    Option TrackerState :=
  entries.foldlM (fun acc e => handleEntry e acc) t

/-- A sequence of plain `processEntry` steps (used to state stream-level
properties of the tracker). -/
def processEntries (entries : List PerformanceEventTiming) (t : TrackerState) :
    Option TrackerState :=
  entries.foldlM (fun acc e => processEntry e acc) t

/-- The per-session measurement state owned by `onINP`'s activation closure:
the tracker, the baseline counter (line 34) and the metric object. -/
structure INPState where
  tracker : TrackerState
  prevInteractionCount : Nat
  metric : Metric
deriving DecidableEq, Repr

/-- One invocation of the bound reporter, carrying the metric fields it
observes at call time and whether it is the forced final report. -/
structure ReportCall where
  value : Int
  entries : List PerformanceEventTiming
  isFinal : Bool
deriving DecidableEq, Repr

/-- The `handleEntries` callback (lines 149-183): process the batch,
recompute the estimate, and — only when an estimate exists and its latency
differs from the current metric value — update the metric and invoke the
reporter. -/
def handleEntries (entries : List PerformanceEventTiming) (interactionCount : Nat)
    (s : INPState) : Option (INPState × Option ReportCall) :=
  match processBatch entries s.tracker with
  | none => none
  | some t =>
    match estimateP98LongestInteraction t.longestInteractionList
        interactionCount s.prevInteractionCount with
    | some inp =>
      if inp.latency ≠ s.metric.value then
        let m : Metric := ⟨inp.latency, inp.entries⟩
        some (⟨t, s.prevInteractionCount, m⟩, some ⟨m.value, m.entries, false⟩)
      else
        some (⟨t, s.prevInteractionCount, s.metric⟩, none)
    | none => some (⟨t, s.prevInteractionCount, s.metric⟩, none)

/-- The finalize-time rule of the `onHidden` callback (lines 207-212): when
the metric is still unset but interactions were counted since the baseline,
zero the metric with empty entries; then `report(true)`. -/
def finalizeStep (interactionCount : Nat) (s : INPState) : INPState × ReportCall :=
  let m : Metric :=
    if s.metric.value < 0
        ∧ 0 < getInteractionCountForNavigation interactionCount s.prevInteractionCount then
      ⟨0, []⟩
    else
      s.metric
  (⟨s.tracker, s.prevInteractionCount, m⟩, ⟨m.value, m.entries, true⟩)

/-- The whole `onHidden` callback (lines 202-213): drain the pending
records through `handleEntries`, then apply the finalize-time rule and
force a final report. -/
def onHiddenCallback (records : List PerformanceEventTiming) (interactionCount : Nat)
    (s : INPState) : Option (INPState × List ReportCall) :=
  match handleEntries records interactionCount s with
  | none => none
  | some (s1, c1) =>
    let (s2, c2) := finalizeStep interactionCount s1
    some (s2, c1.toList ++ [c2])

/-- The `onBFCacheRestore` callback (lines 217-226): reset the list, snap
the baseline to the host's current total, and create a fresh metric.  The
source does not touch `longestInteractionMap` here, so the map is carried
over unchanged. -/
def onBFCacheRestoreCallback (interactionCount : Nat) (s : INPState) : INPState :=
  ⟨⟨[], s.tracker.longestInteractionMap⟩, interactionCount, initMetric⟩

/-- The tracked-set invariants the spec states for reachable tracker
states: the list is sorted descending by latency, holds at most ten
records, and the map is exactly the id-index of the list. -/
structure TrackerInv (t : TrackerState) : Prop where
  sorted : t.longestInteractionList.Sorted latencyGE
  bounded : t.longestInteractionList.length ≤ MAX_INTERACTIONS_TO_CONSIDER
  lookup_mem : ∀ k i, mapLookup t.longestInteractionMap k = some i →
    i ∈ t.longestInteractionList ∧ i.id = k
  mem_lookup : ∀ i ∈ t.longestInteractionList,
    mapLookup t.longestInteractionMap i.id = some i

/-- The empty tracker state (module start: lines 50 and 54). -/
def emptyTracker : TrackerState := ⟨[], []⟩

/-- The spec's eleven-interaction scenario: distinct single-fragment
interactions with strictly increasing latencies 10, 20, ..., 110. -/
def scenarioEntries : List PerformanceEventTiming :=
  (List.range 11).map (fun n => ⟨some (n + 1), 10 * ((n : Int) + 1), 0, "event"⟩)

/-- Concrete fixtures used to instantiate the general theorems. -/
def wEntryA : PerformanceEventTiming := ⟨some 1, 300, 0, "event"⟩

def wEntryB : PerformanceEventTiming := ⟨some 2, 100, 5, "event"⟩

def wEntryC : PerformanceEventTiming := ⟨some 1, 350, 12, "event"⟩

def wEntryFI : PerformanceEventTiming := ⟨none, 120, 8, "first-input"⟩

def wInteractionA : Interaction := ⟨some 1, 300, [wEntryA]⟩

def wInteractionB : Interaction := ⟨some 2, 100, [wEntryB]⟩

def wListC3 : List Interaction := [wInteractionA, wInteractionB]

def wSession : INPState := ⟨emptyTracker, 0, initMetric⟩

/-- A session that has tracked one interaction (id 2), as it stands right
before a cache-restore notification. -/
def demoStateC1 : INPState :=
  ⟨⟨[wInteractionB], [(some 2, wInteractionB)]⟩, 0, ⟨100, [wEntryB]⟩⟩

/-- A session that has tracked one interaction (id 1), as it stands right
before a cache-restore notification. -/
def demoStateC2 : INPState :=
  ⟨⟨[wInteractionA], [(some 1, wInteractionA)]⟩, 0, ⟨300, [wEntryA]⟩⟩

/-! ## Basic lemmas about the map operations and the sort -/

theorem mapLookup_mapSet_self (m : List (Option Nat × Interaction)) (k : Option Nat)
    (v : Interaction) : mapLookup (mapSet m k v) k = some v := by
  induction m with
  | nil => simp [mapSet, mapLookup]
  | cons p rest ih =>
    by_cases h : p.1 = k <;> simp [mapSet, mapLookup, h, ih]

theorem mapLookup_map_overwrite (m : List (Option Nat × Interaction)) (k : Option Nat)
    (v : Interaction) (h : (mapLookup m k).isSome) :
    mapLookup (m.map fun p => if p.1 = k then (p.1, v) else p) k = some v := by
  induction m with
  | nil => simp [mapLookup] at h
  | cons p rest ih =>
    by_cases hp : p.1 = k
    · simp [mapLookup, hp]
    · simp [mapLookup, hp] at h ⊢
      exact ih h

theorem mapLookup_mapDelete_ne (m : List (Option Nat × Interaction)) (k k' : Option Nat)
    (h : k' ≠ k) : mapLookup (mapDelete m k') k = mapLookup m k := by
  induction m with
  | nil => rfl
  | cons p rest ih =>
    by_cases hp : p.1 = k'
    · have : p.1 ≠ k := by rw [hp]; exact h
      simp [mapDelete, mapLookup, hp, this, ih, h]
    · simp [mapDelete, mapLookup, hp, ih]

theorem mapLookup_foldl_mapDelete (dropped : List Interaction)
    (m : List (Option Nat × Interaction)) (k : Option Nat)
    (h : ∀ i ∈ dropped, i.id ≠ k) :
    mapLookup (dropped.foldl (fun acc i => mapDelete acc i.id) m) k = mapLookup m k := by
  induction dropped generalizing m with
  | nil => rfl
  | cons i rest ih =>
    have h1 : i.id ≠ k := h i (List.mem_cons_self i rest)
    have h2 : ∀ j ∈ rest, j.id ≠ k := fun j hj => h j (List.mem_cons_of_mem i hj)
    calc mapLookup ((i :: rest).foldl (fun acc j => mapDelete acc j.id) m) k
        = mapLookup (rest.foldl (fun acc j => mapDelete acc j.id) (mapDelete m i.id)) k := rfl
      _ = mapLookup (mapDelete m i.id) k := ih _ h2
      _ = mapLookup m k := mapLookup_mapDelete_ne m k i.id h1

theorem sortByLatencyDesc_sorted (l : List Interaction) :
    (sortByLatencyDesc l).Sorted latencyGE :=
  List.sorted_insertionSort latencyGE l

theorem sortByLatencyDesc_perm (l : List Interaction) : (sortByLatencyDesc l).Perm l :=
  List.perm_insertionSort latencyGE l

theorem mem_sortByLatencyDesc {l : List Interaction} {x : Interaction} :
    x ∈ sortByLatencyDesc l ↔ x ∈ l :=
  List.mem_insertionSort latencyGE

theorem length_sortByLatencyDesc (l : List Interaction) :
    (sortByLatencyDesc l).length = l.length :=
  List.length_insertionSort latencyGE l

/-! ## The shape of `processEntry` -/

theorem processEntry_eq (e : PerformanceEventTiming) (t : TrackerState) :
    processEntry e t = some (if admitCond e t then admitEntry e t else t) := by
  unfold processEntry admitCond
  by_cases h1 : (mapLookup t.longestInteractionMap e.interactionId).isSome
  · simp [h1]
  · by_cases h2 : t.longestInteractionList.length < MAX_INTERACTIONS_TO_CONSIDER
    · simp [h1, h2]
    · have hne : t.longestInteractionList ≠ [] := by
        intro hcon
        rw [hcon] at h2
        exact h2 (by norm_num [MAX_INTERACTIONS_TO_CONSIDER])
      obtain ⟨m, hm⟩ := Option.isSome_iff_exists.mp (List.getLast?_isSome.mpr hne)
      by_cases h3 : m.latency < e.duration <;> simp [h1, h2, hm, h3]

theorem admitEntry_list_sorted (e : PerformanceEventTiming) (t : TrackerState) :
    (admitEntry e t).longestInteractionList.Sorted latencyGE :=
  List.Pairwise.sublist (List.take_sublist _ _) (sortByLatencyDesc_sorted _)

theorem admitEntry_list_length (e : PerformanceEventTiming) (t : TrackerState) :
    (admitEntry e t).longestInteractionList.length ≤ MAX_INTERACTIONS_TO_CONSIDER := by
  simp [admitEntry, List.length_take]

/-- Claim C10: the admission check of `processEntry` never dereferences the
latency of an absent minimum tracked interaction: the fewer-than-K
disjunct short-circuits first, so evaluation is defined (`isSome`) on
every input state. -/
theorem c10_processEntry_total :
    ∀ (e : PerformanceEventTiming) (t : TrackerState), (processEntry e t).isSome = true := by
  intro e t
  rw [processEntry_eq]
  rfl

/-- Claim C4: after each processed entry the tracked list holds at most
ten interactions and is sorted by latency in descending order, and the
eleven-interaction scenario with latencies 10..110 retains exactly the ten
highest (20..110). -/
theorem c4_topk_sorted_bounded :
    (∀ (e : PerformanceEventTiming) (t t' : TrackerState),
        t.longestInteractionList.Sorted latencyGE →
        t.longestInteractionList.length ≤ MAX_INTERACTIONS_TO_CONSIDER →
        processEntry e t = some t' →
        t'.longestInteractionList.Sorted latencyGE ∧
          t'.longestInteractionList.length ≤ MAX_INTERACTIONS_TO_CONSIDER) ∧
      (processEntries scenarioEntries emptyTracker).map
          (fun t => t.longestInteractionList.map (fun i => i.latency)) =
        some [110, 100, 90, 80, 70, 60, 50, 40, 30, 20] := by
  constructor
  · intro e t t' hs hb hp
    rw [processEntry_eq] at hp
    injection hp with hp
    by_cases hc : admitCond e t = true
    · rw [if_pos hc] at hp
      subst hp
      exact ⟨admitEntry_list_sorted e t, admitEntry_list_length e t⟩
    · rw [if_neg hc] at hp
      subst hp
      exact ⟨hs, hb⟩
  · decide

/-! ## The estimator -/

theorem estimateP98_nil (interactionCount prevInteractionCount : Nat) :
    estimateP98LongestInteraction [] interactionCount prevInteractionCount = none := by
  unfold estimateP98LongestInteraction
  have hmin : min ((([] : List Interaction).length : Int) - 1)
      ((getInteractionCountForNavigation interactionCount prevInteractionCount).fdiv 50) ≤ -1 := by
    exact min_le_left ((([] : List Interaction).length : Int) - 1) _
  rw [if_neg (by omega)]

/-- Claim C3: for a nonempty tracked list and a nonnegative
interactions-since-baseline count N, the estimator returns the element at
index `min(length - 1, N / 50)` of the list (which exists); on the empty
list it returns none. -/
theorem c3_estimator_index :
    ∀ (list : List Interaction) (interactionCount prevInteractionCount : Nat),
      prevInteractionCount ≤ interactionCount →
      (list ≠ [] →
        estimateP98LongestInteraction list interactionCount prevInteractionCount =
          list[min (list.length - 1) ((interactionCount - prevInteractionCount) / 50)]? ∧
        (list[min (list.length - 1) ((interactionCount - prevInteractionCount) / 50)]?).isSome
          = true) ∧
      (list = [] →
        estimateP98LongestInteraction list interactionCount prevInteractionCount = none) := by
  intro list count prev hle
  refine ⟨?_, fun h => h ▸ estimateP98_nil count prev⟩
  intro hne
  have hlen : 1 ≤ list.length := List.length_pos.mpr hne
  have hN : getInteractionCountForNavigation count prev = ((count - prev : Nat) : Int) := by
    unfold getInteractionCountForNavigation
    omega
  have hfdiv : ((count - prev : Nat) : Int).fdiv 50 = (((count - prev) / 50 : Nat) : Int) := by
    rw [Int.fdiv_eq_ediv _ (by norm_num)]
    exact (Int.ofNat_ediv _ _).symm
  have hidx : min ((list.length : Int) - 1) (((count - prev) / 50 : Nat) : Int)
      = ((min (list.length - 1) ((count - prev) / 50) : Nat) : Int) := by
    omega
  have hix : min (list.length - 1) ((count - prev) / 50) < list.length := by omega
  constructor
  · unfold estimateP98LongestInteraction
    rw [hN, hfdiv, hidx, if_pos (by positivity)]
    congr 1
  · rw [List.getElem?_eq_getElem hix]
    rfl

/-! ## Merging fragments into one interaction -/

theorem foldl_mergeFragment_entries (es : List PerformanceEventTiming) :
    ∀ i : Interaction, (es.foldl mergeFragment i).entries = i.entries ++ es := by
  induction es with
  | nil => intro i; simp
  | cons e rest ih => intro i; simp [ih, mergeFragment]

theorem le_foldl_mergeFragment_latency (es : List PerformanceEventTiming) :
    ∀ i : Interaction, i.latency ≤ (es.foldl mergeFragment i).latency := by
  induction es with
  | nil => intro i; exact le_refl _
  | cons e rest ih =>
    intro i
    calc i.latency ≤ (mergeFragment i e).latency := le_max_left _ _
      _ ≤ _ := ih (mergeFragment i e)

theorem duration_le_foldl_mergeFragment (es : List PerformanceEventTiming) :
    ∀ i : Interaction, ∀ e ∈ es, e.duration ≤ (es.foldl mergeFragment i).latency := by
  induction es with
  | nil => intro i e he; cases he
  | cons e0 rest ih =>
    intro i e he
    rcases List.mem_cons.mp he with h | h
    · subst h
      calc e.duration ≤ (mergeFragment i e).latency := le_max_right _ _
        _ ≤ _ := le_foldl_mergeFragment_latency rest (mergeFragment i e)
    · exact ih (mergeFragment i e0) e h

theorem foldl_mergeFragment_latency_mem (es : List PerformanceEventTiming) :
    ∀ i : Interaction, (es.foldl mergeFragment i).latency = i.latency ∨
      (es.foldl mergeFragment i).latency ∈ es.map (fun e => e.duration) := by
  induction es with
  | nil => intro i; exact Or.inl rfl
  | cons e rest ih =>
    intro i
    rw [List.foldl_cons]
    rcases ih (mergeFragment i e) with h | h
    · rcases max_choice i.latency e.duration with hm | hm
      · exact Or.inl (by rw [h]; exact hm)
      · refine Or.inr ?_
        rw [List.map_cons, h]
        have hd : (mergeFragment i e).latency = e.duration := hm
        rw [hd]
        exact List.mem_cons_self _ _
    · exact Or.inr (by rw [List.map_cons]; exact List.mem_cons_of_mem _ h)

/-- Claim C6: merging a sequence of fragments into one interaction under
the same identity leaves `entries` holding exactly those fragments in
arrival order, leaves `latency` equal to the maximum duration over all
merged fragments, and each single merge step never lowers the latency. -/
theorem c6_merge_max_latency :
    ∀ (e0 : PerformanceEventTiming) (es : List PerformanceEventTiming),
      (es.foldl mergeFragment (mkInteraction e0)).entries = e0 :: es ∧
      (∀ e ∈ e0 :: es,
        e.duration ≤ (es.foldl mergeFragment (mkInteraction e0)).latency) ∧
      ((es.foldl mergeFragment (mkInteraction e0)).latency
          ∈ (e0 :: es).map (fun e => e.duration)) ∧
      (∀ (i : Interaction) (e : PerformanceEventTiming),
        i.latency ≤ (mergeFragment i e).latency) := by
  intro e0 es
  refine ⟨?_, ?_, ?_, fun i e => le_max_left _ _⟩
  · rw [foldl_mergeFragment_entries]
    rfl
  · intro e he
    rcases List.mem_cons.mp he with h | h
    · subst h
      exact le_foldl_mergeFragment_latency es (mkInteraction e)
    · exact duration_le_foldl_mergeFragment es (mkInteraction e0) e h
  · rcases foldl_mergeFragment_latency_mem es (mkInteraction e0) with h | h
    · rw [List.map_cons, h]
      exact List.mem_cons_self _ _
    · rw [List.map_cons]
      exact List.mem_cons_of_mem _ h

/-! ## Finalize-time rule and the change-gated report step -/

/-- Claim C7: at finalize time, a still-unset (negative) metric together
with a positive interactions-since-baseline count yields a forced final
report carrying value exactly 0 with no entries (and the metric is zeroed
accordingly); with a zero count the rule does not fire and the metric is
reported unchanged. -/
theorem c7_finalize_zero_report :
    ∀ (interactionCount : Nat) (s : INPState),
      s.metric.value < 0 →
      ((0 < getInteractionCountForNavigation interactionCount s.prevInteractionCount →
          finalizeStep interactionCount s =
            (⟨s.tracker, s.prevInteractionCount, ⟨0, []⟩⟩, ⟨0, [], true⟩)) ∧
        (getInteractionCountForNavigation interactionCount s.prevInteractionCount ≤ 0 →
          (finalizeStep interactionCount s).1.metric = s.metric ∧
            (finalizeStep interactionCount s).2 =
              ⟨s.metric.value, s.metric.entries, true⟩)) := by
  intro count s hv
  constructor
  · intro hc
    simp only [finalizeStep]
    rw [if_pos ⟨hv, hc⟩]
  · intro hc
    simp only [finalizeStep]
    rw [if_neg (fun h => absurd h.2 (not_lt.mpr hc))]
    exact ⟨rfl, rfl⟩

/-- Claim C8: after a batch is processed and the estimate recomputed, the
reporter is invoked exactly when an estimate exists whose latency differs
from the held metric value; on invocation the metric's value and entries
are already updated to the new estimate; an empty tracked set yields no
report and an unchanged metric; the baseline is untouched. -/
theorem c8_change_gated_report :
    ∀ (entries : List PerformanceEventTiming) (interactionCount : Nat)
      (s s' : INPState) (rep : Option ReportCall),
      handleEntries entries interactionCount s = some (s', rep) →
      s'.prevInteractionCount = s.prevInteractionCount ∧
      (rep ≠ none ↔ ∃ inp,
          estimateP98LongestInteraction s'.tracker.longestInteractionList
              interactionCount s.prevInteractionCount = some inp ∧
            inp.latency ≠ s.metric.value) ∧
      (∀ c, rep = some c →
        s'.metric.value = c.value ∧ s'.metric.entries = c.entries ∧ c.isFinal = false ∧
        ∃ inp, estimateP98LongestInteraction s'.tracker.longestInteractionList
            interactionCount s.prevInteractionCount = some inp ∧
          c.value = inp.latency ∧ c.entries = inp.entries) ∧
      (s'.tracker.longestInteractionList = [] → rep = none ∧ s'.metric = s.metric) := by
  intro entries count s s' rep h
  unfold handleEntries at h
  split at h
  · exact absurd h (by simp)
  · rename_i t hb
    split at h
    · rename_i inp hest
      split at h
      · rename_i hne
        injection h with h
        injection h with h1 h2
        subst h1
        subst h2
        refine ⟨rfl, ?_, ?_, ?_⟩
        · constructor
          · intro _
            exact ⟨inp, hest, hne⟩
          · intro _
            simp
        · intro c hc
          injection hc with hc
          subst hc
          exact ⟨rfl, rfl, rfl, inp, hest, rfl, rfl⟩
        · intro hnil
          simp only at hnil
          rw [hnil, estimateP98_nil] at hest
          cases hest
      · rename_i hne
        injection h with h
        injection h with h1 h2
        subst h1
        subst h2
        refine ⟨rfl, ?_, ?_, fun _ => ⟨rfl, rfl⟩⟩
        · constructor
          · intro hcon
            exact absurd rfl hcon
          · rintro ⟨inp2, hinp2, hne2⟩
            simp only at hinp2
            rw [hest] at hinp2
            injection hinp2 with hinp2
            subst hinp2
            exact absurd hne2 hne
        · intro c hc
          cases hc
    · rename_i hest
      injection h with h
      injection h with h1 h2
      subst h1
      subst h2
      refine ⟨rfl, ?_, ?_, fun _ => ⟨rfl, rfl⟩⟩
      · constructor
        · intro hcon
          exact absurd rfl hcon
        · rintro ⟨inp2, hinp2, _⟩
          simp only at hinp2
          rw [hest] at hinp2
          cases hinp2
      · intro c hc
        cases hc

/-! ## Admission lemmas for the top-K tracker -/

theorem admitCond_none_cases (e : PerformanceEventTiming) (t : TrackerState)
    (hlk : mapLookup t.longestInteractionMap e.interactionId = none)
    (hc : admitCond e t = true) :
    t.longestInteractionList.length < MAX_INTERACTIONS_TO_CONSIDER ∨
      ∃ m0, t.longestInteractionList.getLast? = some m0 ∧ m0.latency < e.duration := by
  unfold admitCond at hc
  rw [hlk] at hc
  cases hg : t.longestInteractionList.getLast? with
  | none =>
    rw [hg] at hc
    simp at hc
    exact Or.inl hc
  | some m0 =>
    rw [hg] at hc
    simp at hc
    rcases hc with h | h
    · exact Or.inl h
    · exact Or.inr ⟨m0, rfl, h⟩

theorem admitEntry_lookup_update (e : PerformanceEventTiming) (t : TrackerState)
    (i : Interaction)
    (hb : t.longestInteractionList.length ≤ MAX_INTERACTIONS_TO_CONSIDER)
    (hlk : mapLookup t.longestInteractionMap e.interactionId = some i) :
    mapLookup (admitEntry e t).longestInteractionMap e.interactionId =
      some (mergeFragment i e) := by
  simp only [admitEntry, upsert, hlk]
  have hlen : (sortByLatencyDesc (t.longestInteractionList.map
      (fun j => if j.id = e.interactionId then mergeFragment i e else j))).length
        ≤ MAX_INTERACTIONS_TO_CONSIDER := by
    rw [length_sortByLatencyDesc, List.length_map]
    exact hb
  rw [List.drop_eq_nil_of_le hlen]
  simp only [List.foldl_nil]
  exact mapLookup_map_overwrite _ _ _ (by rw [hlk]; rfl)

theorem admitEntry_update_mem (e : PerformanceEventTiming) (t : TrackerState)
    (i : Interaction) (hInv : TrackerInv t)
    (hlk : mapLookup t.longestInteractionMap e.interactionId = some i) :
    mergeFragment i e ∈ (admitEntry e t).longestInteractionList := by
  obtain ⟨hmem, hid⟩ := hInv.lookup_mem _ _ hlk
  simp only [admitEntry, upsert, hlk]
  rw [List.take_of_length_le
    (by rw [length_sortByLatencyDesc, List.length_map]; exact hInv.bounded)]
  rw [mem_sortByLatencyDesc]
  exact List.mem_map.mpr ⟨i, hmem, by rw [if_pos hid]⟩

theorem admitEntry_new (e : PerformanceEventTiming) (t : TrackerState)
    (hInv : TrackerInv t)
    (hlk : mapLookup t.longestInteractionMap e.interactionId = none)
    (hcond : t.longestInteractionList.length < MAX_INTERACTIONS_TO_CONSIDER ∨
      ∃ m0, t.longestInteractionList.getLast? = some m0 ∧ m0.latency < e.duration) :
    mapLookup (admitEntry e t).longestInteractionMap e.interactionId =
      some (mkInteraction e) ∧
    mkInteraction e ∈ (admitEntry e t).longestInteractionList := by
  simp only [admitEntry, upsert, hlk]
  have hslen : (sortByLatencyDesc
      (t.longestInteractionList ++ [mkInteraction e])).length =
      t.longestInteractionList.length + 1 := by
    rw [length_sortByLatencyDesc, List.length_append]
    rfl
  by_cases hlen : t.longestInteractionList.length < MAX_INTERACTIONS_TO_CONSIDER
  · have hle : (sortByLatencyDesc
        (t.longestInteractionList ++ [mkInteraction e])).length
          ≤ MAX_INTERACTIONS_TO_CONSIDER := by omega
    rw [List.drop_eq_nil_of_le hle, List.take_of_length_le hle]
    constructor
    · simp only [List.foldl_nil]
      exact mapLookup_mapSet_self _ _ _
    · rw [mem_sortByLatencyDesc]
      exact List.mem_append_right _ (List.mem_singleton_self _)
  · obtain ⟨m0, hm0, hm0lt⟩ := hcond.resolve_left hlen
    have hm0mem : m0 ∈ t.longestInteractionList :=
      List.mem_of_mem_getLast? (by rw [hm0]; rfl)
    have hdlen : ((sortByLatencyDesc
        (t.longestInteractionList ++ [mkInteraction e])).drop
          MAX_INTERACTIONS_TO_CONSIDER).length = 1 := by
      rw [List.length_drop, hslen]
      have := hInv.bounded
      omega
    obtain ⟨x, hx⟩ := List.length_eq_one.mp hdlen
    have hsplit : (sortByLatencyDesc
          (t.longestInteractionList ++ [mkInteraction e])).take
            MAX_INTERACTIONS_TO_CONSIDER ++
        (sortByLatencyDesc
          (t.longestInteractionList ++ [mkInteraction e])).drop
            MAX_INTERACTIONS_TO_CONSIDER =
        sortByLatencyDesc (t.longestInteractionList ++ [mkInteraction e]) :=
      List.take_append_drop _ _
    have hpw' : ((sortByLatencyDesc
          (t.longestInteractionList ++ [mkInteraction e])).take
            MAX_INTERACTIONS_TO_CONSIDER ++
        (sortByLatencyDesc
          (t.longestInteractionList ++ [mkInteraction e])).drop
            MAX_INTERACTIONS_TO_CONSIDER).Pairwise latencyGE := by
      rw [hsplit]
      exact sortByLatencyDesc_sorted _
    have hpw := (List.pairwise_append.mp hpw').2.2
    have hxnew : x ≠ mkInteraction e := by
      intro hxeq
      have hm0ne : m0 ≠ mkInteraction e := by
        intro h
        have hlook := hInv.mem_lookup m0 hm0mem
        rw [h] at hlook
        rw [show (mkInteraction e).id = e.interactionId from rfl, hlk] at hlook
        cases hlook
      have hm0take : m0 ∈ (sortByLatencyDesc
          (t.longestInteractionList ++ [mkInteraction e])).take
            MAX_INTERACTIONS_TO_CONSIDER := by
        have hms : m0 ∈ sortByLatencyDesc
            (t.longestInteractionList ++ [mkInteraction e]) := by
          rw [mem_sortByLatencyDesc]
          exact List.mem_append_left _ hm0mem
        rw [← hsplit] at hms
        rcases List.mem_append.mp hms with h | h
        · exact h
        · rw [hx] at h
          exact absurd ((List.mem_singleton.mp h).trans hxeq) hm0ne
      have hlat := hpw m0 hm0take x (by rw [hx]; exact List.mem_singleton_self _)
      rw [hxeq] at hlat
      have : e.duration ≤ m0.latency := hlat
      omega
    have hxmem : x ∈ t.longestInteractionList := by
      have hxd : x ∈ (sortByLatencyDesc
          (t.longestInteractionList ++ [mkInteraction e])).drop
            MAX_INTERACTIONS_TO_CONSIDER := by
        rw [hx]
        exact List.mem_singleton_self _
      have hxs := List.drop_subset _ _ hxd
      rw [mem_sortByLatencyDesc] at hxs
      rcases List.mem_append.mp hxs with h | h
      · exact h
      · exact absurd (List.mem_singleton.mp h) hxnew
    have hxid : x.id ≠ e.interactionId := by
      intro hxid
      have hlook := hInv.mem_lookup x hxmem
      rw [hxid, hlk] at hlook
      cases hlook
    constructor
    · rw [hx]
      simp only [List.foldl_cons, List.foldl_nil]
      rw [mapLookup_mapDelete_ne _ _ _ hxid]
      exact mapLookup_mapSet_self _ _ _
    · have hnews : mkInteraction e ∈ sortByLatencyDesc
          (t.longestInteractionList ++ [mkInteraction e]) := by
        rw [mem_sortByLatencyDesc]
        exact List.mem_append_right _ (List.mem_singleton_self _)
      rw [← hsplit] at hnews
      rcases List.mem_append.mp hnews with h | h
      · exact h
      · rw [hx] at h
        exact absurd (List.mem_singleton.mp h).symm hxnew

theorem admitted_entry_mem (e : PerformanceEventTiming) (t : TrackerState)
    (hInv : TrackerInv t) (hc : admitCond e t = true) :
    ∃ i ∈ (admitEntry e t).longestInteractionList, e ∈ i.entries := by
  cases hlk : mapLookup t.longestInteractionMap e.interactionId with
  | some i =>
    refine ⟨mergeFragment i e, admitEntry_update_mem e t i hInv hlk, ?_⟩
    simp [mergeFragment]
  | none =>
    obtain ⟨_, h2⟩ :=
      admitEntry_new e t hInv hlk (admitCond_none_cases e t hlk hc)
    exact ⟨mkInteraction e, h2, by simp [mkInteraction]⟩

theorem trackerInv_empty : TrackerInv emptyTracker := by
  constructor
  · exact List.sorted_nil
  · simp [emptyTracker, MAX_INTERACTIONS_TO_CONSIDER]
  · intro k i h
    simp [emptyTracker, mapLookup] at h
  · intro i hi
    simp [emptyTracker] at hi

/-- Claim C5: `processEntry` mutates the tracker exactly when the guard
holds — the id is already tracked (then the record is updated in place,
visible at the same key), the tracked set has fewer than ten members, or
the duration exceeds the latency of the last (minimum) tracked
interaction; otherwise it is a no-op on the tracked set and index. -/
theorem c5_admission_guard :
    ∀ (e : PerformanceEventTiming) (t : TrackerState), TrackerInv t →
      (admitCond e t = false → processEntry e t = some t) ∧
      (admitCond e t = true →
        processEntry e t = some (admitEntry e t) ∧ admitEntry e t ≠ t) ∧
      (∀ i, mapLookup t.longestInteractionMap e.interactionId = some i →
        mapLookup (admitEntry e t).longestInteractionMap e.interactionId =
          some (mergeFragment i e)) := by
  intro e t hInv
  refine ⟨?_, ?_, fun i hlk => admitEntry_lookup_update e t i hInv.bounded hlk⟩
  · intro hc
    rw [processEntry_eq, hc]
    rfl
  · intro hc
    refine ⟨by rw [processEntry_eq, hc]; rfl, ?_⟩
    intro heq
    cases hlk : mapLookup t.longestInteractionMap e.interactionId with
    | some i =>
      have h1 := admitEntry_lookup_update e t i hInv.bounded hlk
      rw [heq, hlk] at h1
      injection h1 with h1
      have : i.entries.length = (i.entries ++ [e]).length := by
        conv_lhs => rw [show i.entries = (mergeFragment i e).entries from by rw [← h1]]
        rfl
      simp at this
    | none =>
      have h1 :=
        (admitEntry_new e t hInv hlk (admitCond_none_cases e t hlk hc)).1
      rw [heq, hlk] at h1
      cases h1

/-- Claim C9: a fragment without an interaction identity and of type
`first-input` is admitted to the tracker exactly when no tracked fragment
shares its duration and start time; identity-bearing fragments are
processed regardless of the deduplication scan — on any tracker state
satisfying the invariants, handling such an entry coincides with plain
`processEntry`. -/
theorem c9_first_input_dedup :
    ∀ (t : TrackerState) (e : PerformanceEventTiming), TrackerInv t →
      (truthyId e.interactionId = false → e.entryType = "first-input" →
        handleEntry e t =
          (if noMatchingEntry t e then processEntry e t else some t)) ∧
      (truthyId e.interactionId = true → handleEntry e t = processEntry e t) := by
  intro t e hInv
  constructor
  · intro h1 h2
    simp [handleEntry, h1, h2]
  · intro h1
    by_cases h2 : e.entryType = "first-input"
    · by_cases hc : admitCond e t = true
      · obtain ⟨i, hi, hei⟩ := admitted_entry_mem e t hInv hc
        have hnm : noMatchingEntry (admitEntry e t) e = false := by
          simp only [noMatchingEntry, Bool.not_eq_false', List.any_eq_true]
          exact ⟨i, hi, e, hei, by simp⟩
        simp [handleEntry, h1, h2, hc, hnm, processEntry_eq]
      · have hc' : admitCond e t = false := by
          rwa [Bool.not_eq_true] at hc
        simp [handleEntry, h1, h2, hc', processEntry_eq]
    · simp [handleEntry, h1, h2, processEntry_eq]

/-! ## The cache-restore callback and the stale index -/

/-- Claim C1 (failing on the code): the `onBFCacheRestore` callback clears
the tracked list but never clears `longestInteractionMap`, so immediately
after a restore the index still maps id 2 to an interaction that is no
longer in the (now empty) tracked set — the index is not kept in lock-step
with this clearing of the tracked set. -/
theorem c1_index_not_lockstep_after_restore :
    (onBFCacheRestoreCallback 5 demoStateC1).tracker.longestInteractionList = [] ∧
    mapLookup (onBFCacheRestoreCallback 5 demoStateC1).tracker.longestInteractionMap
        (some 2) = some wInteractionB ∧
    wInteractionB ∉
      (onBFCacheRestoreCallback 5 demoStateC1).tracker.longestInteractionList := by
  decide

/-- Claim C2 (failing on the code): after a cache-restore notification the
baseline is reset to the host total and a fresh metric is installed and
the tracked list is emptied, but the lookup index is not empty — it still
holds the pre-restore entry for id 1 — and a post-restore fragment bearing
that stale id is merged into the stale record and never enters the tracked
set, so the next estimate is not independent of pre-restore history. -/
theorem c2_restore_reset_incomplete :
    (onBFCacheRestoreCallback 7 demoStateC2).tracker.longestInteractionList = [] ∧
    (onBFCacheRestoreCallback 7 demoStateC2).prevInteractionCount = 7 ∧
    (onBFCacheRestoreCallback 7 demoStateC2).metric = initMetric ∧
    (onBFCacheRestoreCallback 7 demoStateC2).tracker.longestInteractionMap ≠ [] ∧
    mapLookup (onBFCacheRestoreCallback 7 demoStateC2).tracker.longestInteractionMap
        (some 1) = some wInteractionA ∧
    (processEntry wEntryC (onBFCacheRestoreCallback 7 demoStateC2).tracker).map
        (fun tr => tr.longestInteractionList) = some [] := by
  decide

/-! ## Witness instantiations of the general theorems -/

theorem c3_estimator_index_witness :
    estimateP98LongestInteraction wListC3 55 0 =
      wListC3[min (wListC3.length - 1) ((55 - 0) / 50)]? ∧
    (wListC3[min (wListC3.length - 1) ((55 - 0) / 50)]?).isSome = true :=
  (c3_estimator_index wListC3 55 0 (by decide)).1 (by decide)

theorem c4_topk_sorted_bounded_witness :
    (admitEntry wEntryA emptyTracker).longestInteractionList.Sorted latencyGE ∧
    (admitEntry wEntryA emptyTracker).longestInteractionList.length ≤
      MAX_INTERACTIONS_TO_CONSIDER :=
  c4_topk_sorted_bounded.1 wEntryA emptyTracker (admitEntry wEntryA emptyTracker)
    (by simp [emptyTracker]) (by decide) (by decide)

theorem c5_admission_guard_witness :
    admitCond wEntryA emptyTracker = true ∧
    processEntry wEntryA emptyTracker = some (admitEntry wEntryA emptyTracker) ∧
    admitEntry wEntryA emptyTracker ≠ emptyTracker :=
  ⟨by decide,
   ((c5_admission_guard wEntryA emptyTracker trackerInv_empty).2.1 (by decide)).1,
   ((c5_admission_guard wEntryA emptyTracker trackerInv_empty).2.1 (by decide)).2⟩

theorem c6_merge_max_latency_witness :
    ([wEntryC].foldl mergeFragment (mkInteraction wEntryA)).entries =
      wEntryA :: [wEntryC] ∧
    wEntryC.duration ≤ ([wEntryC].foldl mergeFragment (mkInteraction wEntryA)).latency :=
  ⟨(c6_merge_max_latency wEntryA [wEntryC]).1,
   (c6_merge_max_latency wEntryA [wEntryC]).2.1 wEntryC (by decide)⟩

theorem c7_finalize_zero_report_witness :
    finalizeStep 3 wSession =
      (⟨wSession.tracker, wSession.prevInteractionCount, ⟨0, []⟩⟩,
       ⟨0, [], true⟩) :=
  (c7_finalize_zero_report 3 wSession (by decide)).1 (by decide)

theorem c8_change_gated_report_witness :
    ∃ s' rep, handleEntries [wEntryA] 1 wSession = some (s', rep) ∧
      (rep ≠ none ↔ ∃ inp,
        estimateP98LongestInteraction s'.tracker.longestInteractionList 1
            wSession.prevInteractionCount = some inp ∧
          inp.latency ≠ wSession.metric.value) :=
  ⟨_, _, rfl, (c8_change_gated_report [wEntryA] 1 wSession _ _ rfl).2.1⟩

theorem c9_first_input_dedup_witness :
    handleEntry wEntryA emptyTracker = processEntry wEntryA emptyTracker ∧
    truthyId wEntryA.interactionId = true :=
  ⟨(c9_first_input_dedup emptyTracker wEntryA trackerInv_empty).2 (by decide),
   by decide⟩
